import Mathlib

/-!
Verification development for the airline-simulation workflow engine.
The Python source under `src/src/` is shallowly embedded: pure functions
become Lean functions, the document store becomes explicit state passing,
machine floats become exact rationals, and fallible external calls
(text-generation service, JSON decoding) become `Except`/`Option`-valued
parameters.  Timestamps are abstracted as natural numbers passed in as a
`now` argument.
-/

namespace Airlines

/-! ## Data model (src/src/models.py)

`AirlineAction.parameters` is a Python `Dict[str, Any]`; the code only ever
reads the keys `count` (an int, default 1), `route` (a string) and
`reputation_impact` (a number, default 5), so the mapping is embedded as a
record of those three optional typed fields. -/

structure ActionParams where
  count : Option Int
  route : Option String
  reputation_impact : Option ℚ
  deriving DecidableEq, Repr

def ActionParams.empty : ActionParams := ⟨none, none, none⟩

structure AirlineAction where
  action_type : String
  description : String
  cost : ℚ
  parameters : ActionParams
  deriving DecidableEq, Repr

structure SemesterPlan where
  team_id : String
  semester : String
  actions : List AirlineAction
  total_budget : ℚ
  submission_timestamp : ℕ
  deriving DecidableEq, Repr

structure AirlineState where
  team_id : String
  name : String
  cash : ℚ
  aircraft_count : ℤ
  routes : List String
  market_share : ℚ
  reputation : ℚ
  last_updated : ℕ
  deriving DecidableEq, Repr

structure MarketState where
  total_passengers : ℤ
  competition_level : ℚ
  economic_conditions : String
  events : List String
  last_updated : ℕ
  deriving DecidableEq, Repr

structure AgentResponse where
  approved_actions : List AirlineAction
  rejected_actions : List AirlineAction
  cash_used : ℚ
  reasoning : String
  deriving DecidableEq, Repr

structure EvaluationFeedback where
  team_id : String
  score : ℚ
  feedback_text : String
  strengths : List String
  improvement_areas : List String
  created_at : ℕ
  deriving DecidableEq, Repr

/-! ## Company agent (src/src/agents/company_agent.py) -/

/-- Sum of the `cost` fields of a list of actions. -/
def sumCosts (l : List AirlineAction) : ℚ := (l.map (fun a => a.cost)).sum

/-- `CompanyAgent._is_action_feasible` (company_agent.py lines 133-149).
Note that the state argument is whatever state the caller passes; the
implementer passes the state fetched at call time. -/
def is_action_feasible (action : AirlineAction) (airline_state : AirlineState) : Bool :=
  if action.action_type == "purchase_aircraft" then true
  else if action.action_type == "add_route" then
    decide (airline_state.aircraft_count > (airline_state.routes.length : ℤ))
  else if action.action_type == "marketing_campaign" then true
  else if action.action_type == "staff_training" then true
  else if action.action_type == "maintenance_upgrade" then
    decide (airline_state.aircraft_count > 0)
  else true

instance costLE : DecidableRel (fun a b : AirlineAction => a.cost ≤ b.cost) :=
  fun a b => inferInstanceAs (Decidable (a.cost ≤ b.cost))

/-- `sorted(plan.actions, key=lambda x: x.cost)` (company_agent.py line 110):
Python's `sorted` is a stable ascending sort, embedded as a stable insertion
sort on the `cost` key. -/
def sortActions (l : List AirlineAction) : List AirlineAction :=
  List.insertionSort (fun a b : AirlineAction => a.cost ≤ b.cost) l

/-- Output of the implementer loop. -/
structure ImplResult where
  approved : List AirlineAction
  rejected : List AirlineAction
  cash_used : ℚ
  deriving DecidableEq, Repr

/-- The loop body of `CompanyAgent._implementer_node` (company_agent.py lines
116-125): iterate over the cost-sorted actions with a running `cash_used`
accumulator; the feasibility predicate is always evaluated against
`airline_state`, the state fetched at call time. -/
def implementFrom (available_cash : ℚ) (airline_state : AirlineState) :
    ℚ → List AirlineAction → ImplResult
  | cash_used, [] => ⟨[], [], cash_used⟩
  | cash_used, action :: rest =>
    if cash_used + action.cost ≤ available_cash then
      if is_action_feasible action airline_state then
        let r := implementFrom available_cash airline_state (cash_used + action.cost) rest
        ⟨action :: r.approved, r.rejected, r.cash_used⟩
      else
        let r := implementFrom available_cash airline_state cash_used rest
        ⟨r.approved, action :: r.rejected, r.cash_used⟩
    else
      let r := implementFrom available_cash airline_state cash_used rest
      ⟨r.approved, action :: r.rejected, r.cash_used⟩

/-- `CompanyAgent._implementer_node` (company_agent.py lines 104-131). -/
def implementer_node (plan : SemesterPlan) (airline_state : AirlineState) : ImplResult :=
  implementFrom airline_state.cash airline_state 0 (sortActions plan.actions)

/-- `CompanyAgent._validator_node` (company_agent.py lines 42-102): advisory
messages only.  Exact Python number formatting is abstracted by `toString`;
the AI call's outcome is the `valLLM` parameter (`.ok` = response content,
`.error` = the raised exception's message). -/
def validator_messages (plan : SemesterPlan) (airline_state : AirlineState)
    (valLLM : Except String String) : List String :=
  let total_cost := sumCosts plan.actions
  let budgetMsgs : List String :=
    if total_cost > airline_state.cash then
      [("Plan is over budget by $" ++ toString (total_cost - airline_state.cash) ++
        ". Available: $" ++ toString airline_state.cash ++
        ", Requested: $" ++ toString total_cost)]
    else []
  let aircraft_intensive_actions := plan.actions.filter
    (fun a => a.action_type == "add_route" || a.action_type == "increase_frequency")
  let capacityMsgs : List String :=
    if (aircraft_intensive_actions.length : ℤ) > airline_state.aircraft_count then
      [("Insufficient aircraft for route operations. Available: " ++
        toString airline_state.aircraft_count ++ ", Required: " ++
        toString aircraft_intensive_actions.length)]
    else []
  let aiMsg : String :=
    match valLLM with
    | .ok ai_validation => "AI Strategic Assessment: " ++ ai_validation
    | .error e => "AI validation failed: " ++ e
  budgetMsgs ++ capacityMsgs ++ [aiMsg]

/-- `CompanyAgent._apply_action_to_state` (company_agent.py lines 189-201).
Python's `if route and route not in airline_state.routes` treats an empty
string (and a missing key) as falsy. -/
def apply_action_to_state (action : AirlineAction) (airline_state : AirlineState) :
    AirlineState :=
  if action.action_type == "purchase_aircraft" then
    { airline_state with
        aircraft_count := airline_state.aircraft_count + action.parameters.count.getD 1 }
  else if action.action_type == "add_route" then
    match action.parameters.route with
    | some route =>
      if route ≠ "" ∧ route ∉ airline_state.routes then
        { airline_state with routes := airline_state.routes ++ [route] }
      else airline_state
    | none => airline_state
  else if action.action_type == "marketing_campaign" then
    { airline_state with
        reputation :=
          min 100 (airline_state.reputation + action.parameters.reputation_impact.getD 5) }
  else airline_state

/-- `CompanyAgent.process_plan` (company_agent.py lines 151-187): fetch the
team state (`.error` = the `ValueError` raised when it is absent), run
validator and implementer, subtract `cash_used`, apply the approved actions,
and return the response together with the persisted updated state. -/
def process_plan (fetched_state : Option AirlineState) (valLLM : Except String String)
    (plan : SemesterPlan) (team_id : String) (now : ℕ) :
    Except String (AgentResponse × AirlineState) :=
  match fetched_state with
  | none => .error ("Airline state not found for team " ++ team_id)
  | some airline_state =>
    let msgs := validator_messages plan airline_state valLLM
    let r := implementer_node plan airline_state
    let updated0 : AirlineState :=
      { airline_state with cash := airline_state.cash - r.cash_used, last_updated := now }
    let updated_airline := r.approved.foldl (fun st a => apply_action_to_state a st) updated0
    .ok (⟨r.approved, r.rejected, r.cash_used, String.intercalate "\n" msgs⟩, updated_airline)

/-! ## Evaluation agent (src/src/agents/evaluation_agent.py)

Regex/keyword scanning over the text-generation responses is embedded as
explicit character-list scanning (ASCII; Python `\s` is modelled by its ASCII
members).  `json.loads` of the brace-delimited extract is an external call
and is modelled by a `jsonLoads` parameter returning `none` when it raises. -/

/-- Needle is a prefix of hay (first argument is the needle). -/
def charsBegin : List Char → List Char → Bool
  | [], _ => true
  | _ :: _, [] => false
  | a :: as, b :: bs => a == b && charsBegin as bs

/-- Python `needle in hay` on strings, as character lists. -/
def charsContain : List Char → List Char → Bool
  | [], needle => needle.isEmpty
  | h :: t, needle => charsBegin needle (h :: t) || charsContain t needle

/-- Python substring test `needle in hay`. -/
def strContains (hay needle : String) : Bool := charsContain hay.toList needle.toList

/-- Python `str.lower`, as an explicit ASCII case mapping over the character
list (the scanned keywords and patterns are all ASCII). -/
def pyLower (s : String) : String := String.mk (s.toList.map Char.toLower)

/-- ASCII members of Python's `\s` character class. -/
def isPySpace (c : Char) : Bool :=
  c == ' ' || c == '\t' || c == '\n' || c == '\r' || c == '\x0b' || c == '\x0c'

/-- Numeric value of a digit run (what Python's `int` does to the match). -/
def digitsToNat (ds : List Char) : ℕ := ds.foldl (fun n c => 10 * n + (c.toNat - 48)) 0

/-- After a literal `score` match: `[:\s]*` then `(\d+)`, or fail. -/
def scoreTail (l : List Char) : Option ℕ :=
  let rest := l.dropWhile (fun c => c == ':' || isPySpace c)
  let ds := rest.takeWhile Char.isDigit
  if ds.isEmpty then none else some (digitsToNat ds)

/-- Leftmost search for `score[:\s]*(\d+)` (evaluation_agent.py line 168); the
text is expected already lowercased, matching `re.IGNORECASE`. -/
def scoreScan : List Char → Option ℕ
  | [] => none
  | c :: t =>
    if charsBegin (String.toList "score") (c :: t) then
      match scoreTail ((c :: t).drop 5) with
      | some n => some n
      | none => scoreScan t
    else scoreScan t

/-- Result record of `_parse_ai_feedback` / `_simple_text_parsing`. -/
structure ParsedFeedback where
  score : ℚ
  feedback_text : String
  strengths : List String
  improvement_areas : List String
  deriving DecidableEq, Repr

/-- `EvaluationAgent._simple_text_parsing` (evaluation_agent.py lines 165-194). -/
def simple_text_parsing (text : String) : ParsedFeedback :=
  let lower := pyLower text
  let score : ℕ := (scoreScan lower.toList).getD 75
  let strengths : List String :=
    (if strContains lower ("good") || strContains lower ("strong") then
      [("Strategic execution")] else []) ++
    (if strContains lower ("coherent") then [("Plan coherence")] else []) ++
    (if strContains lower ("realistic") then [("Realistic planning")] else [])
  let improvement_areas : List String :=
    (if strContains lower ("improve") then [("Strategic refinement")] else []) ++
    (if strContains lower ("budget") && (strContains lower ("over") || strContains lower ("exceed"))
      then [("Budget management")] else []) ++
    (if strContains lower ("risk") then [("Risk assessment")] else [])
  { score := ((min 100 score : ℕ) : ℚ)
    feedback_text := if text.length > 500 then text.take 500 ++ "..." else text
    strengths := if strengths ≠ [] then strengths else [("Strategic thinking")]
    improvement_areas :=
      if improvement_areas ≠ [] then improvement_areas else [("Implementation planning")] }

/-- A JSON object successfully decoded by `json.loads`: the four keys the
parser reads, each possibly absent. -/
structure ParsedDict where
  score : Option ℚ
  feedback_text : Option String
  strengths : Option (List String)
  improvement_areas : Option (List String)

/-- `re.search` for `\{.*\}` with DOTALL succeeds iff some `\x7b` has a later
`\x7d` (evaluation_agent.py line 146). -/
def hasBraceMatch : List Char → Bool
  | [] => false
  | c :: t => (c == '\x7b' && t.contains '\x7d') || hasBraceMatch t

/-- `EvaluationAgent._parse_ai_feedback` (evaluation_agent.py lines 139-163):
if a brace-delimited extract exists, decode it (`jsonLoads` returning `none`
models every exception in the branch, which falls through to
`_simple_text_parsing`); otherwise scan the raw text. -/
def parse_ai_feedback (jsonLoads : String → Option ParsedDict) (ai_response : String) :
    ParsedFeedback :=
  if hasBraceMatch ai_response.toList then
    match jsonLoads ai_response with
    | some parsed =>
      { score := min 100 (max 0 (parsed.score.getD 50))
        feedback_text := parsed.feedback_text.getD ("No detailed feedback available.")
        strengths := parsed.strengths.getD [("Strategic thinking")]
        improvement_areas := parsed.improvement_areas.getD [("Resource planning")] }
    | none => simple_text_parsing ai_response
  else simple_text_parsing ai_response

/-- Python `int()` on a rational value: truncation toward zero. -/
def pyInt (q : ℚ) : ℤ := if 0 ≤ q then ⌊q⌋ else ⌈q⌉

/-- `EvaluationAgent._generate_fallback_evaluation` (evaluation_agent.py lines
196-243).  The `airline_state` argument is taken but never read, as in the
source; the feedback text's numeric formatting is abstracted by `toString`. -/
def generate_fallback_evaluation (team_id : String) (plan : SemesterPlan)
    (company_response : AgentResponse) (airline_state : AirlineState) (now : ℕ) :
    EvaluationFeedback :=
  let approval_rate : ℚ :=
    if plan.actions ≠ [] then
      ((company_response.approved_actions.length : ℚ) / (plan.actions.length : ℚ))
    else 0
  let budget_efficiency : ℚ :=
    if plan.total_budget > 0 then company_response.cash_used / plan.total_budget else 0
  let base_score : ℚ := approval_rate * 50 + budget_efficiency * 30 + 20
  let score : ℤ := min 100 (max 0 (pyInt base_score))
  let strengths : List String :=
    (if approval_rate > 8/10 then [("High plan feasibility")] else []) ++
    (if budget_efficiency > 7/10 then [("Efficient resource allocation")] else []) ++
    (if plan.actions.length > 5 then [("Comprehensive planning")] else [])
  let improvement_areas : List String :=
    (if approval_rate < 1/2 then [("Plan feasibility and validation")] else []) ++
    (if budget_efficiency < 1/2 then [("Budget planning and utilization")] else []) ++
    (if company_response.rejected_actions.length > 3 then [("Resource constraint awareness")]
      else [])
  let feedback_text :=
    "Your semester plan achieved a " ++ toString approval_rate ++ " approval rate with " ++
    toString company_response.approved_actions.length ++ " out of " ++
    toString plan.actions.length ++ " actions implemented. You utilized $" ++
    toString company_response.cash_used ++ " of your $" ++ toString plan.total_budget ++
    " budget (" ++ toString budget_efficiency ++ " efficiency)."
  { team_id := team_id
    score := (score : ℚ)
    feedback_text := feedback_text
    strengths := if strengths ≠ [] then strengths else [("Strategic initiative")]
    improvement_areas :=
      if improvement_areas ≠ [] then improvement_areas else [("Strategic alignment")]
    created_at := now }

/-- `EvaluationAgent.evaluate_team_performance` (evaluation_agent.py lines
16-65).  `fetched_state`/`fetched_market` are the document-store lookups;
`.error` results model exceptions escaping the method: the explicit
`ValueError` when the airline state is absent, and the `AttributeError` from
`_build_evaluation_prompt` (called before the `try` block) when the market
state is absent.  `evalLLM` is the text-generation call; when it raises the
`except` branch returns the fallback evaluation.  The `market_results`
argument is never read by the method, as in the source. -/
def evaluate_team_performance {α : Type} (fetched_state : Option AirlineState)
    (fetched_market : Option MarketState) (evalLLM : Except String String)
    (jsonLoads : String → Option ParsedDict) (team_id : String) (plan : SemesterPlan)
    (company_response : AgentResponse) (market_results : α) (now : ℕ) :
    Except String EvaluationFeedback :=
  match fetched_state with
  | none => .error ("Airline state not found for team " ++ team_id)
  | some airline_state =>
    match fetched_market with
    | none => .error ("AttributeError: NoneType has no attribute economic_conditions")
    | some _market_state =>
      match evalLLM with
      | .ok ai_feedback =>
        let parsed := parse_ai_feedback jsonLoads ai_feedback
        .ok { team_id := team_id
              score := parsed.score
              feedback_text := parsed.feedback_text
              strengths := parsed.strengths
              improvement_areas := parsed.improvement_areas
              created_at := now }
      | .error _ =>
        .ok (generate_fallback_evaluation team_id plan company_response airline_state now)

/-! ## Document store (src/src/database.py)

The Firestore collections the workflow reads and writes are embedded as an
explicit record: the `airlines` collection (documents keyed by `team_id`;
`document(id).set` is an upsert) and the singleton `market_state` document.
Feedback documents are append-only and never read back by the workflow, so
they are not tracked. -/

structure Db where
  airlines : List AirlineState
  market : Option MarketState
  deriving Repr

/-- `FirestoreManager.get_airline_state`. -/
def dbGetAirline (db : Db) (team_id : String) : Option AirlineState :=
  db.airlines.find? (fun a => a.team_id == team_id)

/-- `FirestoreManager.update_airline_state`: upsert keyed by `team_id`. -/
def dbSetAirline (db : Db) (s : AirlineState) : Db :=
  if db.airlines.any (fun a => a.team_id == s.team_id) then
    { db with airlines := db.airlines.map (fun a => if a.team_id == s.team_id then s else a) }
  else
    { db with airlines := db.airlines ++ [s] }

/-- `FirestoreManager.update_market_state`. -/
def dbSetMarket (db : Db) (m : MarketState) : Db := { db with market := some m }

/-! ## Market agent (src/src/agents/market_agent.py)

The injected randomness (`random.random` triggers with their `random.choice`
picks, and the two `random.uniform` jitters) is supplied through a
`MarketRandom` record, per team by list position for the share jitter; the
per-team text-generation call is a `repLLM` function, also by position. -/

/-- Result dict of `MarketAgent._analyze_market_competition`; the empty-roster
default dict has no `total_routes` key, hence the `Option`. -/
structure MarketAnalysis where
  competition_intensity : ℚ
  market_concentration : ℚ
  total_capacity : ℤ
  total_routes : Option ℕ
  average_reputation : ℚ
  deriving DecidableEq, Repr

/-- `MarketAgent._analyze_market_competition` (market_agent.py lines 62-87). -/
def analyze_market_competition (airlines : List AirlineState) : MarketAnalysis :=
  if airlines = [] then
    { competition_intensity := 1/10
      market_concentration := 0
      total_capacity := 0
      total_routes := none
      average_reputation := 50 }
  else
    let total_aircraft : ℤ := (airlines.map (fun a => a.aircraft_count)).sum
    let total_routes : ℕ := ((airlines.map (fun a => a.routes)).flatten.dedup).length
    let market_shares := airlines.map (fun a => a.market_share)
    let reputations := airlines.map (fun a => a.reputation)
    let hhi : ℚ := (market_shares.map (fun s => s ^ 2)).sum
    let competition_intensity : ℚ := min 1 ((total_aircraft : ℚ) / 20)
    { competition_intensity := competition_intensity
      market_concentration := hhi
      total_capacity := total_aircraft
      total_routes := some total_routes
      average_reputation := reputations.sum / (reputations.length : ℚ) }

def economic_events : List String :=
  [("Fuel prices increased by 15% due to geopolitical tensions"),
   ("Tourism boom increases passenger demand by 20%"),
   ("Economic recession reduces business travel by 25%"),
   ("New airport opens, creating expansion opportunities"),
   ("Government introduces new aviation taxes")]

def competition_events : List String :=
  [("New low-cost carrier enters the market"),
   ("Major competitor files for bankruptcy"),
   ("International airline alliance forms"),
   ("Price war initiated by market leader"),
   ("New regulatory restrictions on routes")]

def operational_events : List String :=
  [("Air traffic control strikes cause delays"),
   ("Weather disruptions affect 30% of flights"),
   ("New safety regulations require aircraft modifications"),
   ("Pilot shortage affects industry capacity"),
   ("Technology upgrade improves efficiency")]

/-- One run's injected randomness for the market agent. -/
structure MarketRandom where
  econPick : Option (Fin 5)
  compPick : Option (Fin 5)
  operPick : Option (Fin 5)
  shareEps : ℕ → ℚ
  demandEps : ℚ

/-- `MarketAgent._generate_market_events` (market_agent.py lines 89-125); each
`some i` is a triggered probability draw together with its `random.choice`. -/
def generate_market_events (rnd : MarketRandom) : List String :=
  (match rnd.econPick with
   | some i => [economic_events.getD i.val ("")]
   | none => []) ++
  (match rnd.compPick with
   | some i => [competition_events.getD i.val ("")]
   | none => []) ++
  (match rnd.operPick with
   | some i => [operational_events.getD i.val ("")]
   | none => [])

/-- The literal prefix of the `"reputation_change":\s*(-?\d+)` pattern. -/
def repChangePattern : List Char := String.toList "\"reputation_change\":"

/-- After the literal prefix: `\s*` then `(-?\d+)`, or fail. -/
def intTail (l : List Char) : Option ℤ :=
  let rest := l.dropWhile isPySpace
  match rest with
  | '-' :: ds =>
    let digits := ds.takeWhile Char.isDigit
    if digits.isEmpty then none else some (-(digitsToNat digits : ℤ))
  | _ =>
    let digits := rest.takeWhile Char.isDigit
    if digits.isEmpty then none else some ((digitsToNat digits : ℤ))

/-- Leftmost search for `"reputation_change":\s*(-?\d+)` (market_agent.py
line 211); case-sensitive, as in the source. -/
def repChangeScan : List Char → Option ℤ
  | [] => none
  | c :: t =>
    if charsBegin repChangePattern (c :: t) then
      match intTail ((c :: t).drop repChangePattern.length) with
      | some n => some n
      | none => repChangeScan t
    else repChangeScan t

/-- `MarketAgent._ai_performance_evaluation` (market_agent.py lines 163-220),
reduced to the `reputation_change` value it returns: 0 on service error, on a
missing substring, or on a failed regex match; otherwise the parsed integer
clamped to [-5, 5]. -/
def ai_performance_evaluation (llm : Except String String) : ℤ :=
  match llm with
  | .error _ => 0
  | .ok content =>
    if strContains content ("reputation_change") then
      match repChangeScan content.toList with
      | some reputation_change => max (-5) (min 5 reputation_change)
      | none => 0
    else 0

/-- `MarketAgent._calculate_airline_performance` (market_agent.py lines
127-161).  `eps` is the `random.uniform(-0.1, 0.1)` draw; the market share is
only reassigned when `total_capacity > 0`, otherwise it is left as it was.
The `reputation_change` key is always present in the analysis dict, so the
reputation clamp is always applied. -/
def calculate_airline_performance (airline : AirlineState)
    (market_analysis : MarketAnalysis) (eps : ℚ) (llm : Except String String) (now : ℕ) :
    AirlineState :=
  let total_capacity := market_analysis.total_capacity
  let u0 :=
    if total_capacity > 0 then
      let capacity_share : ℚ := (airline.aircraft_count : ℚ) / (total_capacity : ℚ)
      let reputation_factor : ℚ := airline.reputation / 100
      let base_share := capacity_share * reputation_factor
      { airline with market_share := min 1 (base_share * (1 + eps)) }
    else airline
  let reputation_delta := ai_performance_evaluation llm
  let u1 :=
    { u0 with reputation := max 0 (min 100 (u0.reputation + (reputation_delta : ℚ))) }
  { u1 with last_updated := now }

/-- `MarketAgent._calculate_total_demand` (market_agent.py lines 222-233);
`eps2` is the `random.uniform(-0.05, 0.05)` draw. -/
def calculate_total_demand (market_analysis : MarketAnalysis)
    (current_market : MarketState) (eps2 : ℚ) : ℤ :=
  let base_demand : ℚ := (current_market.total_passengers : ℚ)
  let competition_factor : ℚ := 1 + market_analysis.competition_intensity * (2/10)
  let reputation_factor : ℚ := 1 + ((market_analysis.average_reputation - 50) / 100 * (1/10))
  let random_factor : ℚ := 1 + eps2
  let new_demand := pyInt (base_demand * competition_factor * reputation_factor * random_factor)
  max 800000 (min 1500000 new_demand)

/-- `MarketAgent._determine_economic_conditions` (market_agent.py lines
235-252): keyword hits are counted per (event, keyword) pair. -/
def determine_economic_conditions (events : List String) : String :=
  let negative_keywords : List String :=
    [("recession"), ("crisis"), ("strike"), ("disruption"), ("tax")]
  let positive_keywords : List String :=
    [("boom"), ("growth"), ("opportunity"), ("efficiency"), ("upgrade")]
  let negative_count :=
    (events.map (fun e => (negative_keywords.filter (fun k => strContains (pyLower e) k)).length)).sum
  let positive_count :=
    (events.map (fun e => (positive_keywords.filter (fun k => strContains (pyLower e) k)).length)).sum
  if positive_count > negative_count then ("growing")
  else if negative_count > positive_count then ("declining")
  else ("stable")

/-- Return dict of `MarketAgent.evaluate_market_performance`. -/
structure MarketResult where
  market_state : MarketState
  airlines : List AirlineState
  market_analysis : MarketAnalysis

/-- `MarketAgent.evaluate_market_performance` (market_agent.py lines 16-60).
The `all_responses` argument is never read by the method, as in the source.
Each updated airline is written back immediately in the loop; because the
loop reads only the initial roster snapshot and the precomputed analysis,
this equals updating all states after mapping. -/
def evaluate_market_performance {α : Type} (db : Db) (all_responses : α)
    (rnd : MarketRandom) (repLLM : ℕ → Except String String) (now : ℕ) :
    MarketResult × Db :=
  let all_airlines := db.airlines
  let current_market : MarketState :=
    match db.market with
    | some m => m
    | none =>
      { total_passengers := 1000000
        competition_level := 1/2
        economic_conditions := ("stable")
        events := []
        last_updated := now }
  let market_analysis := analyze_market_competition all_airlines
  let new_events := generate_market_events rnd
  let updated_airlines := all_airlines.enum.map
    (fun p => calculate_airline_performance p.2 market_analysis (rnd.shareEps p.1) (repLLM p.1) now)
  let db1 := updated_airlines.foldl dbSetAirline db
  let updated_market : MarketState :=
    { total_passengers := calculate_total_demand market_analysis current_market rnd.demandEps
      competition_level := market_analysis.competition_intensity
      economic_conditions := determine_economic_conditions new_events
      events := new_events
      last_updated := now }
  let db2 := dbSetMarket db1 updated_market
  (⟨updated_market, updated_airlines, market_analysis⟩, db2)

/-! ## Workflow orchestrator (src/src/workflow.py)

`SimulationWorkflow.process_semester_plans` threads the document store
through the four steps.  The per-team result dict is embedded as an
association list with Python-dict upsert semantics; LLM outcomes are
supplied per team id (`valLLM`, `evalLLM`) or per roster position
(`repLLM`). -/

/-- One entry of the per-team `results` dict.  Optional fields model keys
that are only present on some paths; `has_market_results` records whether
the `market_results` key was attached in step 3. -/
structure TeamResult where
  plan : SemesterPlan
  company_response : Option AgentResponse
  error : Option String
  has_market_results : Bool
  evaluation : Option EvaluationFeedback
  evaluation_error : Option String
  status : String

/-- Python dict assignment `d[k] = v` on an association list. -/
def dictSet (k : String) (v : TeamResult) : List (String × TeamResult) →
    List (String × TeamResult)
  | [] => [(k, v)]
  | (k', v') :: rest => if k' == k then (k, v) :: rest else (k', v') :: dictSet k v rest

/-- Python dict lookup `d[k]` on an association list. -/
def dictGet (k : String) (d : List (String × TeamResult)) : Option TeamResult :=
  (d.find? (fun p => p.1 == k)).map (fun p => p.2)

/-- Step 2 of `process_semester_plans` (workflow.py lines 34-53): run
`CompanyAgent.process_plan` per plan; a success persists the updated state
and records a `company_processed` entry, an exception records a
`company_failed` entry carrying the message and leaves the store untouched. -/
def step2 (valLLM : String → Except String String) (now : ℕ) :
    Db → List SemesterPlan → List (String × TeamResult) → List AgentResponse →
    Db × List (String × TeamResult) × List AgentResponse
  | db, [], results, responses => (db, results, responses)
  | db, plan :: rest, results, responses =>
    match process_plan (dbGetAirline db plan.team_id) (valLLM plan.team_id) plan
        plan.team_id now with
    | .ok (resp, updated_airline) =>
      step2 valLLM now (dbSetAirline db updated_airline) rest
        (dictSet plan.team_id
          ⟨plan, some resp, none, false, none, none, ("company_processed")⟩ results)
        (responses ++ [resp])
    | .error e =>
      step2 valLLM now db rest
        (dictSet plan.team_id ⟨plan, none, some e, false, none, none, ("company_failed")⟩
          results)
        responses

/-- Step 3's per-entry update (workflow.py lines 61-64): attach the market
results and advance a `company_processed` entry to `market_processed`. -/
def markEntry (r : TeamResult) : TeamResult :=
  if r.status == "company_processed" then
    { r with has_market_results := true, status := ("market_processed") }
  else r

def markMarketProcessed (results : List (String × TeamResult)) :
    List (String × TeamResult) :=
  results.map (fun p => (p.1, markEntry p.2))

/-- Step 4 of `process_semester_plans` (workflow.py lines 73-89), per entry:
evaluate an entry whose status is `company_processed` or `market_processed`;
an exception from the evaluation agent (including the `KeyError` were the
`company_response` key absent) records `evaluation_failed`. -/
def step4Entry (evalLLM : String → Except String String)
    (jsonLoads : String → Option ParsedDict) (now : ℕ) (db : Db)
    (market_results : Option MarketResult) (team_id : String) (r : TeamResult) :
    TeamResult :=
  if r.status == "company_processed" || r.status == "market_processed" then
    match r.company_response with
    | some resp =>
      match evaluate_team_performance (dbGetAirline db team_id) db.market (evalLLM team_id)
          jsonLoads team_id r.plan resp market_results now with
      | .ok ev => { r with evaluation := some ev, status := ("completed") }
      | .error e => { r with evaluation_error := some e, status := ("evaluation_failed") }
    | none =>
      { r with
          evaluation_error := some ("KeyError: company_response")
          status := ("evaluation_failed") }
  else r

def step4 (evalLLM : String → Except String String)
    (jsonLoads : String → Option ParsedDict) (now : ℕ) (db : Db)
    (market_results : Option MarketResult) (results : List (String × TeamResult)) :
    List (String × TeamResult) :=
  results.map (fun p => (p.1, step4Entry evalLLM jsonLoads now db market_results p.1 p.2))

/-- `EvaluationAgent.generate_instructor_summary` (evaluation_agent.py lines
245-273), reduced to the class-wide statistics; `none` is the
`No airline data available` message dict.  The per-team distribution dict
repeats fields of the roster and is not separately tracked. -/
structure InstructorSummary where
  total_teams : ℕ
  class_avg_reputation : ℚ
  class_avg_market_share : ℚ
  deriving DecidableEq, Repr

def generate_instructor_summary (db : Db) : Option InstructorSummary :=
  match h : db.airlines with
  | [] => none
  | _ :: _ =>
    let reputations := db.airlines.map (fun a => a.reputation)
    let market_shares := db.airlines.map (fun a => a.market_share)
    some { total_teams := db.airlines.length
           class_avg_reputation := reputations.sum / (reputations.length : ℚ)
           class_avg_market_share := market_shares.sum / (market_shares.length : ℚ) }

/-- Return value of the workflow: the per-team entries plus the instructor
summary attached under the `_instructor_summary` key. -/
structure WorkflowResult where
  teams : List (String × TeamResult)
  instructor_summary : Option InstructorSummary

/-- `SimulationWorkflow.process_semester_plans` (workflow.py lines 18-101).
The market stage (step 3) is total in this embedding, so its `except` branch
(which would leave `market_results = None`) is never taken; step 4 then runs
over every entry and the final store is returned alongside the results. -/
def process_semester_plans (valLLM evalLLM : String → Except String String)
    (jsonLoads : String → Option ParsedDict) (rnd : MarketRandom)
    (repLLM : ℕ → Except String String) (now : ℕ) (db : Db)
    (plans : List SemesterPlan) : WorkflowResult × Db :=
  let s2 := step2 valLLM now db plans [] []
  let m := evaluate_market_performance s2.1 s2.2.2 rnd repLLM now
  let results2 := markMarketProcessed s2.2.1
  let results3 := step4 evalLLM jsonLoads now m.2 (some m.1) results2
  (⟨results3, generate_instructor_summary m.2⟩, m.2)

/-! ## Lemmas about the implementer -/

theorem sumCosts_nil : sumCosts [] = 0 := rfl

theorem sumCosts_cons (a : AirlineAction) (l : List AirlineAction) :
    sumCosts (a :: l) = a.cost + sumCosts l := by
  simp [sumCosts]

/-- The running accumulator plus the approved costs equals the final
`cash_used`. -/
theorem implementFrom_cash_used (available : ℚ) (s : AirlineState) :
    ∀ (l : List AirlineAction) (cu : ℚ),
      (implementFrom available s cu l).cash_used =
        cu + sumCosts (implementFrom available s cu l).approved := by
  intro l
  induction l with
  | nil => intro cu; simp [implementFrom, sumCosts]
  | cons a t ih =>
    intro cu
    simp only [implementFrom]
    split
    · split
      · show (implementFrom available s (cu + a.cost) t).cash_used =
          cu + sumCosts (a :: (implementFrom available s (cu + a.cost) t).approved)
        rw [ih, sumCosts_cons]
        ring
      · exact ih cu
    · exact ih cu

/-- The budget guard keeps `cash_used` at or below the available cash. -/
theorem implementFrom_cash_le (available : ℚ) (s : AirlineState) :
    ∀ (l : List AirlineAction) (cu : ℚ), cu ≤ available →
      (implementFrom available s cu l).cash_used ≤ available := by
  intro l
  induction l with
  | nil => intro cu h; simpa [implementFrom] using h
  | cons a t ih =>
    intro cu h
    simp only [implementFrom]
    split
    next hb =>
      split
      · exact ih (cu + a.cost) hb
      · exact ih cu h
    next hb => exact ih cu h

/-- Every action of the input ends up in exactly one of the two buckets. -/
theorem implementFrom_perm (available : ℚ) (s : AirlineState) :
    ∀ (l : List AirlineAction) (cu : ℚ),
      ((implementFrom available s cu l).approved ++
        (implementFrom available s cu l).rejected).Perm l := by
  intro l
  induction l with
  | nil => intro cu; simp [implementFrom]
  | cons a t ih =>
    intro cu
    simp only [implementFrom]
    split
    · split
      · show ((a :: (implementFrom available s (cu + a.cost) t).approved) ++
            (implementFrom available s (cu + a.cost) t).rejected).Perm (a :: t)
        exact (ih (cu + a.cost)).cons a
      · show ((implementFrom available s cu t).approved ++
            (a :: (implementFrom available s cu t).rejected)).Perm (a :: t)
        exact List.perm_middle.trans ((ih cu).cons a)
    · show ((implementFrom available s cu t).approved ++
          (a :: (implementFrom available s cu t).rejected)).Perm (a :: t)
      exact List.perm_middle.trans ((ih cu).cons a)

/-- Every approved action passed the feasibility predicate, always evaluated
against the one state the loop was started with. -/
theorem implementFrom_approved_feasible (available : ℚ) (s : AirlineState) :
    ∀ (l : List AirlineAction) (cu : ℚ),
      ∀ a ∈ (implementFrom available s cu l).approved, is_action_feasible a s = true := by
  intro l
  induction l with
  | nil => intro cu a ha; simp [implementFrom] at ha
  | cons b t ih =>
    intro cu a ha
    simp only [implementFrom] at ha
    split at ha
    · split at ha
      next hf =>
        show _
        rcases List.mem_cons.mp ha with h | h
        · exact h ▸ hf
        · exact ih (cu + b.cost) a h
      next hf => exact ih cu a ha
    · exact ih cu a ha

theorem apply_action_cash (a : AirlineAction) (st : AirlineState) :
    (apply_action_to_state a st).cash = st.cash := by
  unfold apply_action_to_state
  repeat' split
  all_goals rfl

theorem apply_action_team_id (a : AirlineAction) (st : AirlineState) :
    (apply_action_to_state a st).team_id = st.team_id := by
  unfold apply_action_to_state
  repeat' split
  all_goals rfl

theorem apply_action_market_share (a : AirlineAction) (st : AirlineState) :
    (apply_action_to_state a st).market_share = st.market_share := by
  unfold apply_action_to_state
  repeat' split
  all_goals rfl

theorem foldl_apply_cash (l : List AirlineAction) :
    ∀ st : AirlineState,
      (l.foldl (fun st a => apply_action_to_state a st) st).cash = st.cash := by
  induction l with
  | nil => intro st; rfl
  | cons a t ih => intro st; rw [List.foldl_cons, ih, apply_action_cash]

theorem foldl_apply_team_id (l : List AirlineAction) :
    ∀ st : AirlineState,
      (l.foldl (fun st a => apply_action_to_state a st) st).team_id = st.team_id := by
  induction l with
  | nil => intro st; rfl
  | cons a t ih => intro st; rw [List.foldl_cons, ih, apply_action_team_id]

/-- `process_plan` on a present state, written out. -/
theorem process_plan_some (s : AirlineState) (valLLM : Except String String)
    (plan : SemesterPlan) (team_id : String) (now : ℕ) :
    process_plan (some s) valLLM plan team_id now =
      .ok (⟨(implementer_node plan s).approved, (implementer_node plan s).rejected,
            (implementer_node plan s).cash_used,
            String.intercalate "\n" (validator_messages plan s valLLM)⟩,
           (implementer_node plan s).approved.foldl (fun st a => apply_action_to_state a st)
             { s with cash := s.cash - (implementer_node plan s).cash_used,
                      last_updated := now }) := rfl

/-! ## Claims C1, C9, C2 -/

/-- Claim C1: for every plan and every existing team state with non-negative
cash, the implementer approves a subset whose total cost equals the returned
`cash_used` and is at most the cash at call time, and the persisted state has
cash reduced by exactly `cash_used`, hence still non-negative. -/
theorem C1_implementer_cash_invariant (plan : SemesterPlan) (s : AirlineState)
    (valLLM : Except String String) (team_id : String) (now : ℕ) (h : 0 ≤ s.cash) :
    ∃ resp upd, process_plan (some s) valLLM plan team_id now = .ok (resp, upd) ∧
      resp.cash_used = sumCosts resp.approved_actions ∧
      resp.cash_used ≤ s.cash ∧
      upd.cash = s.cash - resp.cash_used ∧
      0 ≤ upd.cash := by
  refine ⟨_, _, process_plan_some s valLLM plan team_id now, ?_, ?_, ?_, ?_⟩
  · simpa using implementFrom_cash_used s.cash s (sortActions plan.actions) 0
  · exact implementFrom_cash_le s.cash s (sortActions plan.actions) 0 h
  · rw [foldl_apply_cash]
  · rw [foldl_apply_cash]
    have := implementFrom_cash_le s.cash s (sortActions plan.actions) 0 h
    show (0 : ℚ) ≤ s.cash - (implementFrom s.cash s 0 (sortActions plan.actions)).cash_used
    linarith

def w1a : AirlineAction := ⟨("staff_training"), ("a"), 40000, ⟨none, none, none⟩⟩

def w1b : AirlineAction := ⟨("staff_training"), ("b"), 30000, ⟨none, none, none⟩⟩

def w1c : AirlineAction := ⟨("staff_training"), ("c"), 50000, ⟨none, none, none⟩⟩

def w1State : AirlineState := ⟨("t1"), ("TestAir"), 100000, 2, [], 0, 50, 0⟩

def w1Plan : SemesterPlan := ⟨("t1"), ("S1"), [w1a, w1b, w1c], 120000, 0⟩

/-- Witness for C1 at the spec's own scenario (cash 100000, costs
40000/30000/50000). -/
theorem C1_witness :
    0 ≤ w1State.cash ∧
    (∃ resp upd,
      process_plan (some w1State) (.error ("svc down")) w1Plan ("t1") 0 = .ok (resp, upd) ∧
      resp.cash_used = sumCosts resp.approved_actions ∧
      resp.cash_used ≤ w1State.cash ∧
      upd.cash = w1State.cash - resp.cash_used ∧
      0 ≤ upd.cash) :=
  ⟨by decide, C1_implementer_cash_invariant w1Plan w1State (.error ("svc down")) ("t1") 0
    (by decide)⟩

/-- Claim C9: the implementer's output partitions the plan's actions (the
multiset union of approved and rejected equals the plan's action multiset),
and `cash_used` is the sum of the approved costs. -/
theorem C9_partition (plan : SemesterPlan) (s : AirlineState)
    (valLLM : Except String String) (team_id : String) (now : ℕ) :
    ∃ resp upd, process_plan (some s) valLLM plan team_id now = .ok (resp, upd) ∧
      (↑resp.approved_actions + ↑resp.rejected_actions : Multiset AirlineAction) =
        ↑plan.actions ∧
      resp.cash_used = sumCosts resp.approved_actions := by
  refine ⟨_, _, process_plan_some s valLLM plan team_id now, ?_, ?_⟩
  · show (↑(implementer_node plan s).approved + ↑(implementer_node plan s).rejected :
        Multiset AirlineAction) = ↑plan.actions
    rw [Multiset.coe_add, Multiset.coe_eq_coe]
    exact (implementFrom_perm s.cash s (sortActions plan.actions) 0).trans
      (List.perm_insertionSort _ plan.actions)
  · simpa using implementFrom_cash_used s.cash s (sortActions plan.actions) 0

def c2Purchase : AirlineAction :=
  ⟨("purchase_aircraft"), ("buy one aircraft"), 10, ⟨some 1, none, none⟩⟩

def c2Route : AirlineAction :=
  ⟨("add_route"), ("open a route"), 20, ⟨none, some ("PRG-LHR"), none⟩⟩

def c2State : AirlineState := ⟨("t1"), ("TestAir"), 100, 0, [], 0, 50, 0⟩

def c2Plan : SemesterPlan := ⟨("t1"), ("S1"), [c2Purchase, c2Route], 100, 0⟩

/-- Counterexample to claim C2: with no aircraft, no routes and ample cash,
the cheap aircraft purchase is approved first; under the claim the later
route opening would see the incremented capacity (it is feasible in the
post-purchase state and affordable), yet the code rejects it, because the
feasibility predicate only ever sees the state fetched at call time. -/
theorem C2_counterexample :
    (implementer_node c2Plan c2State).approved = [c2Purchase] ∧
    (implementer_node c2Plan c2State).rejected = [c2Route] ∧
    is_action_feasible c2Route (apply_action_to_state c2Purchase c2State) = true ∧
    sumCosts [c2Purchase, c2Route] ≤ c2State.cash := by
  refine ⟨?_, ?_, ?_, ?_⟩
  all_goals
    norm_num [implementer_node, sortActions, List.insertionSort, List.orderedInsert,
      implementFrom, is_action_feasible, apply_action_to_state, sumCosts,
      c2Plan, c2State, c2Purchase, c2Route]
  all_goals decide

/-- Claim C2 as amended: during the greedy loop the feasibility predicate is
evaluated for every action against the team state as of call time (approved
actions' effects are not visible to later checks); the approved effects are
applied to the persisted copy only after the loop. -/
theorem C2_amended_feasibility_uses_call_time_state (plan : SemesterPlan)
    (s : AirlineState) (valLLM : Except String String) (team_id : String) (now : ℕ) :
    ∃ resp upd, process_plan (some s) valLLM plan team_id now = .ok (resp, upd) ∧
      resp.approved_actions.all (fun a => is_action_feasible a s) = true ∧
      upd = resp.approved_actions.foldl (fun st a => apply_action_to_state a st)
        { s with cash := s.cash - resp.cash_used, last_updated := now } := by
  refine ⟨_, _, process_plan_some s valLLM plan team_id now, ?_, rfl⟩
  rw [List.all_eq_true]
  intro a ha
  exact implementFrom_approved_feasible s.cash s (sortActions plan.actions) 0 a
    (by simpa using ha)

/-! ## Lemmas about the evaluation agent -/

theorem simple_text_parsing_score_bounds (text : String) :
    0 ≤ (simple_text_parsing text).score ∧ (simple_text_parsing text).score ≤ 100 := by
  unfold simple_text_parsing
  dsimp only
  refine ⟨by positivity, ?_⟩
  exact_mod_cast Nat.min_le_left 100 _

theorem parse_ai_feedback_score_bounds (jsonLoads : String → Option ParsedDict)
    (text : String) :
    0 ≤ (parse_ai_feedback jsonLoads text).score ∧
      (parse_ai_feedback jsonLoads text).score ≤ 100 := by
  unfold parse_ai_feedback
  split
  · split
    · dsimp only
      exact ⟨le_min (by norm_num) (le_max_left 0 _), min_le_left 100 _⟩
    · exact simple_text_parsing_score_bounds text
  · exact simple_text_parsing_score_bounds text

theorem fallback_score_bounds (team_id : String) (plan : SemesterPlan)
    (resp : AgentResponse) (st : AirlineState) (now : ℕ) :
    0 ≤ (generate_fallback_evaluation team_id plan resp st now).score ∧
      (generate_fallback_evaluation team_id plan resp st now).score ≤ 100 := by
  unfold generate_fallback_evaluation
  dsimp only
  constructor
  · exact_mod_cast le_min (by norm_num) (le_max_left 0 _)
  · exact_mod_cast Int.min_le_left 100 _

/-! ## Claims C3, C7, C10 -/

def c3Market : MarketState := ⟨1000000, 1/2, ("stable"), [], 0⟩

def c3Resp : AgentResponse := ⟨[], [], 0, ("")⟩

/-- Counterexample to claim C3: when the team's state record is absent the
evaluator raises its `ValueError` past the boundary instead of degrading to
the fallback, so the caller does not receive an `EvaluationFeedback`. -/
theorem C3_counterexample :
    evaluate_team_performance none (some c3Market) (.error ("svc down"))
        (fun _ => none) ("t9") w1Plan c3Resp () 0 =
      .error ("Airline state not found for team t9") := rfl

/-- Claim C3 as amended: provided the team's state and the market state both
exist, the evaluator never raises — it always returns a feedback record with
score in [0,100] — and every failing text-generation call degrades to the
deterministic fallback evaluation. -/
theorem C3_amended_no_raise_given_records {α : Type} (s : AirlineState)
    (m : MarketState) (evalLLM : Except String String)
    (jsonLoads : String → Option ParsedDict) (team_id : String) (plan : SemesterPlan)
    (resp : AgentResponse) (mr : α) (now : ℕ) :
    (∃ fb, evaluate_team_performance (some s) (some m) evalLLM jsonLoads team_id plan
        resp mr now = .ok fb ∧ 0 ≤ fb.score ∧ fb.score ≤ 100) ∧
    (∀ e : String,
      evaluate_team_performance (some s) (some m) (.error e) jsonLoads team_id plan
          resp mr now =
        .ok (generate_fallback_evaluation team_id plan resp s now)) := by
  constructor
  · cases evalLLM with
    | ok txt =>
      exact ⟨_, rfl, (parse_ai_feedback_score_bounds jsonLoads txt).1,
        (parse_ai_feedback_score_bounds jsonLoads txt).2⟩
    | error e =>
      exact ⟨_, rfl, (fallback_score_bounds team_id plan resp s now).1,
        (fallback_score_bounds team_id plan resp s now).2⟩
  · intro e
    rfl

/-- Refinement target for claim C7, following the spec's determinism wording:
the fallback score and tag sets written as a function of only the approved
count, total count, cash used, declared budget and rejected count, with the
source's `int()` truncation made explicit. -/
def fallbackSummaryOfCounts (approved total : ℕ) (cash_used budget : ℚ)
    (rejected : ℕ) : ℚ × List String × List String :=
  let approval_rate : ℚ := if total ≠ 0 then (approved : ℚ) / (total : ℚ) else 0
  let budget_efficiency : ℚ := if budget > 0 then cash_used / budget else 0
  let score : ℤ := min 100 (max 0 (pyInt (approval_rate * 50 + budget_efficiency * 30 + 20)))
  let strengths : List String :=
    (if approval_rate > 8/10 then [("High plan feasibility")] else []) ++
    (if budget_efficiency > 7/10 then [("Efficient resource allocation")] else []) ++
    (if total > 5 then [("Comprehensive planning")] else [])
  let improvement_areas : List String :=
    (if approval_rate < 1/2 then [("Plan feasibility and validation")] else []) ++
    (if budget_efficiency < 1/2 then [("Budget planning and utilization")] else []) ++
    (if rejected > 3 then [("Resource constraint awareness")] else [])
  ((score : ℚ),
   if strengths ≠ [] then strengths else [("Strategic initiative")],
   if improvement_areas ≠ [] then improvement_areas else [("Strategic alignment")])

/-- The fallback evaluation's observable outputs, as a function of the five
count/amount inputs only. -/
theorem generate_fallback_eq_summary (team_id : String) (plan : SemesterPlan)
    (resp : AgentResponse) (st : AirlineState) (now : ℕ) :
    ((generate_fallback_evaluation team_id plan resp st now).score,
     (generate_fallback_evaluation team_id plan resp st now).strengths,
     (generate_fallback_evaluation team_id plan resp st now).improvement_areas) =
      fallbackSummaryOfCounts resp.approved_actions.length plan.actions.length
        resp.cash_used plan.total_budget resp.rejected_actions.length := by
  unfold generate_fallback_evaluation fallbackSummaryOfCounts
  by_cases h : plan.actions = []
  · simp [h]
  · have h' : plan.actions.length ≠ 0 := by simpa [List.length_eq_zero] using h
    simp [h, h']

def c7Plan : SemesterPlan := ⟨("t1"), ("S1"), [w1a, w1b, w1c], 0, 0⟩

def c7Resp : AgentResponse := ⟨[w1a], [w1b, w1c], 0, ("")⟩

theorem fallbackSummary_at_c7 : (fallbackSummaryOfCounts 1 3 0 0 2).1 = 36 := by
  unfold fallbackSummaryOfCounts
  dsimp only
  rw [if_pos (show (3 : ℕ) ≠ 0 by norm_num), if_neg (show ¬((0 : ℚ) > 0) by norm_num)]
  have harg : ((1 : ℕ) : ℚ) / ((3 : ℕ) : ℚ) * 50 + 0 * 30 + 20 = 110/3 := by norm_num
  rw [harg]
  have h36 : pyInt (110/3) = 36 := by
    unfold pyInt
    rw [if_pos (show (0 : ℚ) ≤ 110/3 by norm_num), Int.floor_eq_iff]
    constructor <;> norm_num
  rw [h36]
  norm_num

/-- Counterexample to claim C7: with 1 of 3 actions approved and declared
budget 0 the code's score is `int(110/3) = 36`, not the claimed un-truncated
clamp of `approval_rate*50 + budget_efficiency*30 + 20 = 110/3`. -/
theorem C7_counterexample :
    (generate_fallback_evaluation ("t1") c7Plan c7Resp c2State 0).score = 36 ∧
    (36 : ℚ) ≠ min 100 (max 0 ((1/3 : ℚ) * 50 + 0 * 30 + 20)) := by
  constructor
  · have h1 := congrArg Prod.fst (generate_fallback_eq_summary ("t1") c7Plan c7Resp c2State 0)
    simp only [c7Plan, c7Resp, List.length_cons, List.length_nil] at h1
    exact h1.trans fallbackSummary_at_c7
  · have : min 100 (max 0 ((1/3 : ℚ) * 50 + 0 * 30 + 20)) = 110/3 := by
      rw [max_eq_right (by norm_num), min_eq_right (by norm_num)]
      norm_num
    rw [this]
    norm_num

/-- Claim C7 as amended: the fallback evaluation's score and tag sets are the
deterministic function `fallbackSummaryOfCounts` of only (approved count,
total count, cash used, declared budget, rejected count), with score equal to
the clamp-to-[0,100] of the integer truncation of
`approval_rate*50 + budget_efficiency*30 + 20`. -/
theorem C7_amended_fallback_deterministic (team_id : String) (plan : SemesterPlan)
    (resp : AgentResponse) (st : AirlineState) (now : ℕ) :
    ((generate_fallback_evaluation team_id plan resp st now).score,
     (generate_fallback_evaluation team_id plan resp st now).strengths,
     (generate_fallback_evaluation team_id plan resp st now).improvement_areas) =
      fallbackSummaryOfCounts resp.approved_actions.length plan.actions.length
        resp.cash_used plan.total_budget resp.rejected_actions.length :=
  generate_fallback_eq_summary team_id plan resp st now

/-- Claim C10: when the response has no brace-delimited JSON extract and no
numeric token after `score`, the lenient scan defaults to score 75, and with
no sentiment keyword hits the tags default to `Strategic thinking` /
`Implementation planning`. -/
theorem C10_lenient_defaults (jsonLoads : String → Option ParsedDict) (text : String)
    (h1 : hasBraceMatch text.toList = false)
    (h2 : scoreScan (pyLower text).toList = none)
    (h3 : strContains (pyLower text) ("good") = false)
    (h4 : strContains (pyLower text) ("strong") = false)
    (h5 : strContains (pyLower text) ("coherent") = false)
    (h6 : strContains (pyLower text) ("realistic") = false)
    (h7 : strContains (pyLower text) ("improve") = false)
    (h8 : (strContains (pyLower text) ("budget") &&
           (strContains (pyLower text) ("over") || strContains (pyLower text) ("exceed"))) = false)
    (h9 : strContains (pyLower text) ("risk") = false) :
    (parse_ai_feedback jsonLoads text).score = 75 ∧
    (parse_ai_feedback jsonLoads text).strengths = [("Strategic thinking")] ∧
    (parse_ai_feedback jsonLoads text).improvement_areas =
      [("Implementation planning")] := by
  unfold parse_ai_feedback
  rw [h1]
  simp only [Bool.false_eq_true, if_false]
  unfold simple_text_parsing
  dsimp only
  rw [h2]
  simp [h3, h4, h5, h6, h7, h8, h9]

/-- Witness for C10 on the response text `hello world`. -/
theorem C10_witness :
    hasBraceMatch (String.toList ("hello world")) = false ∧
    ((parse_ai_feedback (fun _ => none) ("hello world")).score = 75 ∧
     (parse_ai_feedback (fun _ => none) ("hello world")).strengths =
       [("Strategic thinking")] ∧
     (parse_ai_feedback (fun _ => none) ("hello world")).improvement_areas =
       [("Implementation planning")]) :=
  ⟨by decide,
   C10_lenient_defaults (fun _ => none) ("hello world") (by decide) (by decide) (by decide)
     (by decide) (by decide) (by decide) (by decide) (by decide) (by decide)⟩

/-! ## Lemmas about the market agent -/

/-- The per-team update's market-share behaviour, for any analysis dict:
reassigned (with the lower clamp redundant, the product being non-negative)
when total capacity is positive, untouched otherwise. -/
theorem calc_perf_share (airline : AirlineState) (analysis : MarketAnalysis)
    (eps : ℚ) (llm : Except String String) (now : ℕ)
    (hc : 0 ≤ airline.aircraft_count) (hr : 0 ≤ airline.reputation)
    (he : -(1/10) ≤ eps) :
    (analysis.total_capacity > 0 →
      (calculate_airline_performance airline analysis eps llm now).market_share =
        min 1 (max 0 (((airline.aircraft_count : ℚ) / (analysis.total_capacity : ℚ)) *
          (airline.reputation / 100) * (1 + eps)))) ∧
    (analysis.total_capacity ≤ 0 →
      (calculate_airline_performance airline analysis eps llm now).market_share =
        airline.market_share) := by
  unfold calculate_airline_performance
  dsimp only
  constructor
  · intro hpos
    rw [if_pos hpos]
    have hbase : 0 ≤ ((airline.aircraft_count : ℚ) / (analysis.total_capacity : ℚ)) *
        (airline.reputation / 100) * (1 + eps) := by
      have h1 : (0 : ℚ) ≤ (airline.aircraft_count : ℚ) / (analysis.total_capacity : ℚ) := by
        apply div_nonneg
        · exact_mod_cast hc
        · exact_mod_cast le_of_lt hpos
      have h2 : (0 : ℚ) ≤ airline.reputation / 100 := by
        apply div_nonneg hr
        norm_num
      have h3 : (0 : ℚ) ≤ 1 + eps := by linarith
      exact mul_nonneg (mul_nonneg h1 h2) h3
    rw [max_eq_right hbase]
  · intro hle
    rw [if_neg (not_lt.mpr hle)]

/-! ## Claims C4, C5, C8 -/

def c4State : AirlineState := ⟨("t1"), ("TestAir"), 0, 0, [], 1/2, 50, 0⟩

/-- Counterexample to claim C4: with a roster of total capacity 0 the claim
says the new share is the clamp of 0, i.e. 0; the code leaves the old share
(here 1/2) untouched. -/
theorem C4_counterexample :
    (calculate_airline_performance c4State (analyze_market_competition [c4State]) 0
      (.error ("svc down")) 0).market_share = 1/2 ∧
    (analyze_market_competition [c4State]).total_capacity = 0 ∧
    (1/2 : ℚ) ≠ min 1 (max 0 ((0 : ℚ) * (c4State.reputation / 100) * (1 + 0))) := by
  refine ⟨rfl, rfl, ?_⟩
  norm_num [c4State]

/-- Claim C4 as amended: when the roster's total capacity is positive the new
share is clamp-to-[0,1] of capacity share x reputation factor x (1 + jitter)
(given non-negative capacity and reputation and jitter at least -0.1, the
code's upper-only clamp coincides with the two-sided clamp); when the total
capacity is not positive the market share is left unchanged rather than set
to 0. -/
theorem C4_amended_share_formula (airline : AirlineState) (roster : List AirlineState)
    (eps : ℚ) (llm : Except String String) (now : ℕ)
    (hc : 0 ≤ airline.aircraft_count) (hr : 0 ≤ airline.reputation)
    (he : -(1/10) ≤ eps) :
    ((analyze_market_competition roster).total_capacity > 0 →
      (calculate_airline_performance airline (analyze_market_competition roster) eps
          llm now).market_share =
        min 1 (max 0 (((airline.aircraft_count : ℚ) /
          ((analyze_market_competition roster).total_capacity : ℚ)) *
          (airline.reputation / 100) * (1 + eps)))) ∧
    ((analyze_market_competition roster).total_capacity ≤ 0 →
      (calculate_airline_performance airline (analyze_market_competition roster) eps
          llm now).market_share = airline.market_share) :=
  calc_perf_share airline (analyze_market_competition roster) eps llm now hc hr he

/-- Witness for C4 on a two-airline roster with positive total capacity. -/
theorem C4_witness :
    (0 ≤ w1State.aircraft_count ∧ 0 ≤ w1State.reputation ∧ -(1/10) ≤ (0 : ℚ)) ∧
    (((analyze_market_competition [w1State, c4State]).total_capacity > 0 →
      (calculate_airline_performance w1State (analyze_market_competition [w1State, c4State])
          0 (.error ("svc down")) 0).market_share =
        min 1 (max 0 (((w1State.aircraft_count : ℚ) /
          ((analyze_market_competition [w1State, c4State]).total_capacity : ℚ)) *
          (w1State.reputation / 100) * (1 + 0)))) ∧
    ((analyze_market_competition [w1State, c4State]).total_capacity ≤ 0 →
      (calculate_airline_performance w1State (analyze_market_competition [w1State, c4State])
          0 (.error ("svc down")) 0).market_share = w1State.market_share)) :=
  ⟨⟨by norm_num [w1State], by norm_num [w1State], by norm_num⟩,
   C4_amended_share_formula w1State [w1State, c4State] 0 (.error ("svc down")) 0
     (by norm_num [w1State]) (by norm_num [w1State]) (by norm_num)⟩

def c5Marketing : AirlineAction :=
  ⟨("marketing_campaign"), ("smear campaign"), 0, ⟨none, none, some (-100)⟩⟩

/-- Counterexample to claim C5: a marketing action with reputation impact
-100 drives a reputation of 50 to -50, outside [0,100], because the code
clamps marketing reputation only from above. -/
theorem C5_counterexample :
    (apply_action_to_state c5Marketing c2State).reputation = -50 ∧
    ¬(0 ≤ (apply_action_to_state c5Marketing c2State).reputation) := by
  constructor
  · norm_num [apply_action_to_state, c5Marketing, c2State]
    decide
  · norm_num [apply_action_to_state, c5Marketing, c2State]
    decide

/-- Claim C5 as amended: action application never changes market share; it
keeps reputation in [0,100] provided the starting reputation is in [0,100]
and any marketing reputation-impact parameter is non-negative (a negative
impact can leave the range); the market simulator's per-team update always
lands reputation in [0,100], and keeps market share in [0,1] given
non-negative capacity/reputation, a prior share in [0,1] and jitter at least
-0.1. -/
theorem C5_amended_bounds :
    (∀ (a : AirlineAction) (s : AirlineState),
      (apply_action_to_state a s).market_share = s.market_share) ∧
    (∀ (a : AirlineAction) (s : AirlineState),
      0 ≤ s.reputation → s.reputation ≤ 100 →
      0 ≤ a.parameters.reputation_impact.getD 5 →
      0 ≤ (apply_action_to_state a s).reputation ∧
        (apply_action_to_state a s).reputation ≤ 100) ∧
    (∀ (airline : AirlineState) (analysis : MarketAnalysis) (eps : ℚ)
        (llm : Except String String) (now : ℕ),
      0 ≤ (calculate_airline_performance airline analysis eps llm now).reputation ∧
        (calculate_airline_performance airline analysis eps llm now).reputation ≤ 100) ∧
    (∀ (airline : AirlineState) (analysis : MarketAnalysis) (eps : ℚ)
        (llm : Except String String) (now : ℕ),
      0 ≤ airline.aircraft_count → 0 ≤ airline.reputation →
      0 ≤ airline.market_share → airline.market_share ≤ 1 → -(1/10) ≤ eps →
      0 ≤ (calculate_airline_performance airline analysis eps llm now).market_share ∧
        (calculate_airline_performance airline analysis eps llm now).market_share ≤ 1) := by
  refine ⟨apply_action_market_share, ?_, ?_, ?_⟩
  · intro a s h0 h100 himp
    unfold apply_action_to_state
    repeat' split
    all_goals try dsimp only
    all_goals constructor
    all_goals
      first
      | exact h0
      | exact h100
      | exact le_min (by norm_num) (by linarith)
      | exact min_le_left _ _
  · intro airline analysis eps llm now
    unfold calculate_airline_performance
    dsimp only
    exact ⟨le_max_left 0 _, max_le (by norm_num) (min_le_left 100 _)⟩
  · intro airline analysis eps llm now hc hr h0 h1 he
    have h := calc_perf_share airline analysis eps llm now hc hr he
    rcases lt_or_le 0 analysis.total_capacity with hpos | hle
    · rw [h.1 hpos]
      refine ⟨le_min (by norm_num) (le_max_left 0 _), min_le_left 1 _⟩
    · rw [h.2 hle]
      exact ⟨h0, h1⟩

/-- Witness for C5 at a marketing action with impact 5 on reputation 50, and
a market update with jitter 0. -/
theorem C5_witness :
    ((apply_action_to_state c2Purchase c2State).market_share = c2State.market_share) ∧
    (0 ≤ c2State.reputation ∧ c2State.reputation ≤ 100 ∧
      0 ≤ c2Purchase.parameters.reputation_impact.getD 5 ∧
      (0 ≤ (apply_action_to_state c2Purchase c2State).reputation ∧
        (apply_action_to_state c2Purchase c2State).reputation ≤ 100)) ∧
    (0 ≤ (calculate_airline_performance c4State (analyze_market_competition [c4State]) 0
        (.error ("svc down")) 0).market_share ∧
      (calculate_airline_performance c4State (analyze_market_competition [c4State]) 0
        (.error ("svc down")) 0).market_share ≤ 1) :=
  ⟨C5_amended_bounds.1 c2Purchase c2State,
   by
    refine ⟨by norm_num [c2State], by norm_num [c2State], by norm_num [c2Purchase], ?_⟩
    exact C5_amended_bounds.2.1 c2Purchase c2State (by norm_num [c2State])
      (by norm_num [c2State]) (by norm_num [c2Purchase]),
   C5_amended_bounds.2.2.2 c4State (analyze_market_competition [c4State]) 0
     (.error ("svc down")) 0 (by norm_num [c4State]) (by norm_num [c4State])
     (by norm_num [c4State]) (by norm_num [c4State]) (by norm_num)⟩

/-- Claim C8: an empty roster yields the fixed default competition analysis
(intensity 0.1, concentration 0, capacity 0, average reputation 50), with no
`total_routes` key, and no exception. -/
theorem C8_empty_roster_defaults :
    (analyze_market_competition []).competition_intensity = 1/10 ∧
    (analyze_market_competition []).market_concentration = 0 ∧
    (analyze_market_competition []).total_capacity = 0 ∧
    (analyze_market_competition []).average_reputation = 50 ∧
    (analyze_market_competition []).total_routes = none :=
  ⟨rfl, rfl, rfl, rfl, rfl⟩

/-! ## Lemmas about the workflow orchestrator -/

theorem dictGet_set_self (k : String) (v : TeamResult) :
    ∀ d, dictGet k (dictSet k v d) = some v := by
  intro d
  induction d with
  | nil => simp [dictSet, dictGet, List.find?]
  | cons p t ih =>
    unfold dictSet
    by_cases h : (p.1 == k)
    · rw [if_pos h]
      simp [dictGet, List.find?]
    · rw [if_neg h]
      simpa [dictGet, List.find?, h] using ih

theorem dictGet_set_ne (k k' : String) (v : TeamResult) (hne : k' ≠ k) :
    ∀ d, dictGet k (dictSet k' v d) = dictGet k d := by
  have hb : (k' == k) = false := beq_eq_false_iff_ne.mpr hne
  intro d
  induction d with
  | nil => simp [dictSet, dictGet, List.find?, hb]
  | cons p t ih =>
    unfold dictSet
    by_cases h : (p.1 == k')
    · rw [if_pos h]
      have h1 : p.1 = k' := by simpa [beq_iff_eq] using h
      have hp : (p.1 == k) = false := by
        rw [beq_eq_false_iff_ne, h1]
        exact hne
      simp [dictGet, List.find?, hb, hp]
    · rw [if_neg h]
      by_cases h2 : (p.1 == k)
      · simp [dictGet, List.find?, h2]
      · simpa [dictGet, List.find?, h2] using ih

theorem dictGet_mapEntries (g : String → TeamResult → TeamResult) (k : String) :
    ∀ l, dictGet k (l.map (fun p => (p.1, g p.1 p.2))) = (dictGet k l).map (g k) := by
  intro l
  induction l with
  | nil => rfl
  | cons p t ih =>
    by_cases h : (p.1 == k)
    · have h1 : p.1 = k := by simpa [beq_iff_eq] using h
      simp [dictGet, List.find?, h, h1]
    · simpa [dictGet, List.find?, h] using ih

theorem dbGetAirline_team_id (db : Db) (t : String) (s : AirlineState)
    (h : dbGetAirline db t = some s) : s.team_id = t := by
  have := List.find?_some h
  simpa [beq_iff_eq] using this

theorem dbGetAirline_isSome_iff (db : Db) (t : String) :
    (dbGetAirline db t).isSome ↔ ∃ a ∈ db.airlines, a.team_id = t := by
  unfold dbGetAirline
  rw [List.find?_isSome]
  simp [beq_iff_eq]

theorem dbSetAirline_mem (db : Db) (s : AirlineState) (t : String)
    (h : ∃ a ∈ db.airlines, a.team_id = t) :
    ∃ a ∈ (dbSetAirline db s).airlines, a.team_id = t := by
  obtain ⟨a, ha, hat⟩ := h
  unfold dbSetAirline
  split
  · refine ⟨if a.team_id == s.team_id then s else a,
      List.mem_map_of_mem (fun a => if a.team_id == s.team_id then s else a) ha, ?_⟩
    by_cases hb : (a.team_id == s.team_id)
    · rw [if_pos hb]
      have : a.team_id = s.team_id := by simpa [beq_iff_eq] using hb
      rw [← this]
      exact hat
    · rw [if_neg hb]
      exact hat
  · exact ⟨a, List.mem_append_left _ ha, hat⟩

theorem dbSetAirline_not_mem (db : Db) (s : AirlineState) (t : String)
    (h : ¬ ∃ a ∈ db.airlines, a.team_id = t) (hne : s.team_id ≠ t) :
    ¬ ∃ a ∈ (dbSetAirline db s).airlines, a.team_id = t := by
  rintro ⟨a, ha, hat⟩
  unfold dbSetAirline at ha
  split at ha
  · obtain ⟨b, hb, hba⟩ := List.mem_map.mp ha
    by_cases hb2 : (b.team_id == s.team_id)
    · rw [if_pos hb2] at hba
      exact hne (hba ▸ hat)
    · rw [if_neg hb2] at hba
      exact h ⟨b, hb, hba ▸ hat⟩
  · rcases List.mem_append.mp ha with h1 | h1
    · exact h ⟨a, h1, hat⟩
    · have : a = s := by simpa using h1
      exact hne (this ▸ hat)

theorem foldl_dbSet_mem (l : List AirlineState) :
    ∀ (db : Db) (t : String), (∃ a ∈ db.airlines, a.team_id = t) →
      ∃ a ∈ (l.foldl dbSetAirline db).airlines, a.team_id = t := by
  induction l with
  | nil => intro db t h; exact h
  | cons s rest ih =>
    intro db t h
    rw [List.foldl_cons]
    exact ih (dbSetAirline db s) t (dbSetAirline_mem db s t h)

theorem market_preserves_presence {α : Type} (db : Db) (x : α) (rnd : MarketRandom)
    (repLLM : ℕ → Except String String) (now : ℕ) (t : String)
    (h : (dbGetAirline db t).isSome) :
    (dbGetAirline (evaluate_market_performance db x rnd repLLM now).2 t).isSome := by
  rw [dbGetAirline_isSome_iff] at h ⊢
  unfold evaluate_market_performance
  dsimp only [dbSetMarket]
  exact foldl_dbSet_mem _ db t h

theorem market_sets_market {α : Type} (db : Db) (x : α) (rnd : MarketRandom)
    (repLLM : ℕ → Except String String) (now : ℕ) :
    ((evaluate_market_performance db x rnd repLLM now).2).market.isSome := rfl

theorem evaluate_team_ok {α : Type} (s : AirlineState) (m : MarketState)
    (evalLLM : Except String String) (jsonLoads : String → Option ParsedDict)
    (team_id : String) (plan : SemesterPlan) (resp : AgentResponse) (mr : α) (now : ℕ) :
    ∃ fb, evaluate_team_performance (some s) (some m) evalLLM jsonLoads team_id plan
      resp mr now = .ok fb := by
  cases evalLLM with
  | ok t => exact ⟨_, rfl⟩
  | error e => exact ⟨_, rfl⟩

theorem markEntry_company_failed (r : TeamResult) (h : r.status = "company_failed") :
    markEntry r = r := by
  unfold markEntry
  rw [h]
  rfl

theorem step4Entry_company_failed (evalLLM : String → Except String String)
    (jsonLoads : String → Option ParsedDict) (now : ℕ) (db : Db)
    (mr : Option MarketResult) (team_id : String) (r : TeamResult)
    (h : r.status = "company_failed") :
    step4Entry evalLLM jsonLoads now db mr team_id r = r := by
  unfold step4Entry
  rw [h]
  rfl

theorem step4Entry_completes (evalLLM : String → Except String String)
    (jsonLoads : String → Option ParsedDict) (now : ℕ) (db : Db)
    (mr : Option MarketResult) (team_id : String) (r : TeamResult)
    (hs : r.status = "market_processed") (hr : r.company_response.isSome)
    (hdb : (dbGetAirline db team_id).isSome) (hm : db.market.isSome) :
    (step4Entry evalLLM jsonLoads now db mr team_id r).status = "completed" := by
  obtain ⟨resp, hresp⟩ := Option.isSome_iff_exists.mp hr
  obtain ⟨s, hsdb⟩ := Option.isSome_iff_exists.mp hdb
  obtain ⟨m, hmdb⟩ := Option.isSome_iff_exists.mp hm
  obtain ⟨fb, hfb⟩ := evaluate_team_ok s m (evalLLM team_id) jsonLoads team_id r.plan
    resp mr now
  unfold step4Entry
  rw [hs, hresp]
  try dsimp only
  rw [hsdb, hmdb]
  try dsimp only
  rw [hfb]
  rfl

/-- Keys not named by any remaining plan are untouched by step 2. -/
theorem step2_dictGet_untouched (valLLM : String → Except String String) (now : ℕ) :
    ∀ (plans : List SemesterPlan) (db : Db) (res : List (String × TeamResult))
      (resps : List AgentResponse) (k : String),
      (∀ p ∈ plans, p.team_id ≠ k) →
      dictGet k (step2 valLLM now db plans res resps).2.1 = dictGet k res := by
  intro plans
  induction plans with
  | nil => intro db res resps k h; rfl
  | cons q rest ih =>
    intro db res resps k h
    have hqk : q.team_id ≠ k := h q (List.mem_cons_self q rest)
    have hrest : ∀ p ∈ rest, p.team_id ≠ k := fun p hp => h p (List.mem_cons_of_mem q hp)
    simp only [step2]
    cases hpp : process_plan (dbGetAirline db q.team_id) (valLLM q.team_id) q
        q.team_id now with
    | ok pr =>
      try dsimp only
      rw [ih _ _ _ _ hrest, dictGet_set_ne k q.team_id _ hqk]
    | error e =>
      try dsimp only
      rw [ih _ _ _ _ hrest, dictGet_set_ne k q.team_id _ hqk]

/-- Step 2's result entries and store, under the hypotheses of claim C6: a
team whose state is absent gets a `company_failed` entry carrying the
`ValueError` message and writes nothing; every other team gets a
`company_processed` entry with a response, and presence of states in the
store is monotone. -/
theorem step2_spec (valLLM : String → Except String String) (now : ℕ) (t0 : String) :
    ∀ (plans : List SemesterPlan) (db : Db) (res : List (String × TeamResult))
      (resps : List AgentResponse),
      (plans.map (fun p => p.team_id)).Nodup →
      dbGetAirline db t0 = none →
      (∀ p ∈ plans, p.team_id ≠ t0 → (dbGetAirline db p.team_id).isSome) →
      (∀ p ∈ plans, p.team_id = t0 →
        dictGet t0 (step2 valLLM now db plans res resps).2.1 =
          some ⟨p, none, some ("Airline state not found for team " ++ t0), false,
                none, none, ("company_failed")⟩) ∧
      (∀ p ∈ plans, p.team_id ≠ t0 →
        ∃ r, dictGet p.team_id (step2 valLLM now db plans res resps).2.1 = some r ∧
          r.status = "company_processed" ∧ r.company_response.isSome) ∧
      (∀ t, (dbGetAirline db t).isSome →
        (dbGetAirline (step2 valLLM now db plans res resps).1 t).isSome) := by
  intro plans
  induction plans with
  | nil =>
    intro db res resps hnodup habs hpres
    refine ⟨?_, ?_, fun t h => h⟩
    · intro p hp
      exact absurd hp (List.not_mem_nil p)
    · intro p hp
      exact absurd hp (List.not_mem_nil p)
  | cons q rest ih =>
    intro db res resps hnodup habs hpres
    simp only [List.map_cons] at hnodup
    rw [List.nodup_cons] at hnodup
    obtain ⟨hq_not_mem, hnodup'⟩ := hnodup
    by_cases hq : q.team_id = t0
    · -- the head plan is the failing team
      have hdbq : dbGetAirline db q.team_id = none := by rw [hq]; exact habs
      have hpp : process_plan (dbGetAirline db q.team_id) (valLLM q.team_id) q
          q.team_id now = .error ("Airline state not found for team " ++ q.team_id) := by
        rw [hdbq]; rfl
      simp only [step2]
      rw [hpp]
      try dsimp only
      have hpres' : ∀ p ∈ rest, p.team_id ≠ t0 → (dbGetAirline db p.team_id).isSome :=
        fun p hp => hpres p (List.mem_cons_of_mem q hp)
      obtain ⟨ihA, ihB, ihC⟩ := ih db
        (dictSet q.team_id
          ⟨q, none, some ("Airline state not found for team " ++ q.team_id), false,
           none, none, ("company_failed")⟩ res)
        resps hnodup' habs hpres'
      refine ⟨?_, ?_, ihC⟩
      · intro p hp hpt
        rcases List.mem_cons.mp hp with heq | hp'
        · subst heq
          have hrest_ne : ∀ p' ∈ rest, p'.team_id ≠ t0 := by
            intro p' hp' heq'
            apply hq_not_mem
            have hmem : p'.team_id ∈ rest.map (fun p => p.team_id) :=
              List.mem_map_of_mem (fun p => p.team_id) hp'
            rw [heq', ← hq] at hmem
            exact hmem
          rw [step2_dictGet_untouched valLLM now rest _ _ _ t0 hrest_ne]
          rw [hq]
          exact dictGet_set_self t0 _ res
        · exfalso
          apply hq_not_mem
          have hmem : p.team_id ∈ rest.map (fun p => p.team_id) :=
            List.mem_map_of_mem (fun p => p.team_id) hp'
          rw [hpt, ← hq] at hmem
          exact hmem
      · intro p hp hpt
        rcases List.mem_cons.mp hp with heq | hp'
        · subst heq
          exact absurd hq hpt
        · exact ihB p hp' hpt
    · -- the head plan's team state is present
      obtain ⟨s, hs⟩ := Option.isSome_iff_exists.mp (hpres q (List.mem_cons_self q rest) hq)
      simp only [step2]
      rw [hs, process_plan_some s (valLLM q.team_id) q q.team_id now]
      try dsimp only
      have hsid : s.team_id = q.team_id := dbGetAirline_team_id db q.team_id s hs
      have hUid :
          ((implementer_node q s).approved.foldl (fun st a => apply_action_to_state a st)
            { s with cash := s.cash - (implementer_node q s).cash_used,
                     last_updated := now }).team_id = q.team_id := by
        rw [foldl_apply_team_id]
        exact hsid
      have habs0 : ¬ ∃ a ∈ db.airlines, a.team_id = t0 := by
        rw [← dbGetAirline_isSome_iff, Option.not_isSome_iff_eq_none]
        exact habs
      have habs' : dbGetAirline (dbSetAirline db
          ((implementer_node q s).approved.foldl (fun st a => apply_action_to_state a st)
            { s with cash := s.cash - (implementer_node q s).cash_used,
                     last_updated := now })) t0 = none := by
        rw [← Option.not_isSome_iff_eq_none, dbGetAirline_isSome_iff]
        apply dbSetAirline_not_mem db _ t0 habs0
        rw [hUid]
        exact hq
      have hpres' : ∀ p ∈ rest, p.team_id ≠ t0 →
          (dbGetAirline (dbSetAirline db
            ((implementer_node q s).approved.foldl (fun st a => apply_action_to_state a st)
              { s with cash := s.cash - (implementer_node q s).cash_used,
                       last_updated := now })) p.team_id).isSome := by
        intro p hp hpt
        rw [dbGetAirline_isSome_iff]
        apply dbSetAirline_mem
        rw [← dbGetAirline_isSome_iff]
        exact hpres p (List.mem_cons_of_mem q hp) hpt
      obtain ⟨ihA, ihB, ihC⟩ := ih _
        (dictSet q.team_id
          ⟨q, some ⟨(implementer_node q s).approved, (implementer_node q s).rejected,
            (implementer_node q s).cash_used,
            String.intercalate "\n" (validator_messages q s (valLLM q.team_id))⟩,
           none, false, none, none, ("company_processed")⟩ res)
        _ hnodup' habs' hpres'
      refine ⟨?_, ?_, ?_⟩
      · intro p hp hpt
        rcases List.mem_cons.mp hp with heq | hp'
        · subst heq
          exact absurd hpt hq
        · exact ihA p hp' hpt
      · intro p hp hpt
        rcases List.mem_cons.mp hp with heq | hp'
        · subst heq
          have hrest_ne : ∀ p' ∈ rest, p'.team_id ≠ p.team_id := by
            intro p' hp' heq'
            apply hq_not_mem
            have hmem : p'.team_id ∈ rest.map (fun p => p.team_id) :=
              List.mem_map_of_mem (fun p => p.team_id) hp'
            rw [heq'] at hmem
            exact hmem
          refine ⟨⟨p, some ⟨(implementer_node p s).approved, (implementer_node p s).rejected,
              (implementer_node p s).cash_used,
              String.intercalate "\n" (validator_messages p s (valLLM p.team_id))⟩,
            none, false, none, none, ("company_processed")⟩, ?_, rfl, rfl⟩
          rw [step2_dictGet_untouched valLLM now rest _ _ _ p.team_id hrest_ne]
          exact dictGet_set_self p.team_id _ res
        · exact ihB p hp' hpt
      · intro t ht
        apply ihC
        rw [dbGetAirline_isSome_iff]
        apply dbSetAirline_mem
        rw [← dbGetAirline_isSome_iff]
        exact ht

theorem dictGet_markMarket (k : String) (l : List (String × TeamResult)) :
    dictGet k (markMarketProcessed l) = (dictGet k l).map markEntry :=
  dictGet_mapEntries (fun _ r => markEntry r) k l

theorem dictGet_step4 (evalLLM : String → Except String String)
    (jsonLoads : String → Option ParsedDict) (now : ℕ) (db : Db)
    (mr : Option MarketResult) (k : String) (l : List (String × TeamResult)) :
    dictGet k (step4 evalLLM jsonLoads now db mr l) =
      (dictGet k l).map (step4Entry evalLLM jsonLoads now db mr k) :=
  dictGet_mapEntries (step4Entry evalLLM jsonLoads now db mr) k l

theorem markEntry_company_response (r : TeamResult) :
    (markEntry r).company_response = r.company_response := by
  unfold markEntry
  split <;> rfl

theorem markEntry_processed_status (r : TeamResult)
    (h : r.status = "company_processed") :
    (markEntry r).status = "market_processed" := by
  unfold markEntry
  rw [h]
  rfl

/-! ## Claim C6 -/

/-- Claim C6: if one team's state is absent at implementation time, that
team's batch entry is `company_failed` carrying the NotFound message, and
every other team of the batch (whose state exists) still reaches
`completed`. -/
theorem C6_absent_state_isolated (valLLM evalLLM : String → Except String String)
    (jsonLoads : String → Option ParsedDict) (rnd : MarketRandom)
    (repLLM : ℕ → Except String String) (now : ℕ) (db : Db)
    (plans : List SemesterPlan) (t0 : String)
    (hnodup : (plans.map (fun p => p.team_id)).Nodup)
    (hmem : ∃ p ∈ plans, p.team_id = t0)
    (habs : dbGetAirline db t0 = none)
    (hpres : ∀ p ∈ plans, p.team_id ≠ t0 → (dbGetAirline db p.team_id).isSome) :
    (∃ r, dictGet t0
        (process_semester_plans valLLM evalLLM jsonLoads rnd repLLM now db plans).1.teams =
        some r ∧ r.status = "company_failed" ∧
        r.error = some ("Airline state not found for team " ++ t0)) ∧
    (∀ p ∈ plans, p.team_id ≠ t0 →
      ∃ r, dictGet p.team_id
          (process_semester_plans valLLM evalLLM jsonLoads rnd repLLM now db
            plans).1.teams = some r ∧ r.status = "completed") := by
  obtain ⟨Aspec, Bspec, Cspec⟩ := step2_spec valLLM now t0 plans db [] [] hnodup habs hpres
  unfold process_semester_plans
  try dsimp only
  constructor
  · obtain ⟨p0, hp0, hp0t⟩ := hmem
    have hA := Aspec p0 hp0 hp0t
    rw [dictGet_step4, dictGet_markMarket, hA]
    rw [Option.map_some', markEntry_company_failed _ rfl]
    rw [Option.map_some', step4Entry_company_failed _ _ _ _ _ _ _ rfl]
    exact ⟨_, rfl, rfl, rfl⟩
  · intro p hp hpt
    obtain ⟨r, hr, hrs, hrresp⟩ := Bspec p hp hpt
    rw [dictGet_step4, dictGet_markMarket, hr]
    rw [Option.map_some', Option.map_some']
    refine ⟨_, rfl, ?_⟩
    apply step4Entry_completes
    · exact markEntry_processed_status r hrs
    · rw [markEntry_company_response]
      exact hrresp
    · exact market_preserves_presence _ _ rnd repLLM now p.team_id
        (Cspec p.team_id (hpres p hp hpt))
    · exact market_sets_market _ _ rnd repLLM now

def c6PlanB : SemesterPlan := ⟨("t2"), ("S1"), [], 0, 0⟩

def c6Db : Db := ⟨[w1State], none⟩

def c6Rnd : MarketRandom := ⟨none, none, none, fun _ => 0, 0⟩

/-- Witness for C6: a two-plan batch where team `t2` has no state and team
`t1` does; `t2` is marked `company_failed` with the NotFound message while
`t1` reaches `completed`. -/
theorem C6_witness :
    (([w1Plan, c6PlanB].map (fun p => p.team_id)).Nodup ∧
     (∃ p ∈ [w1Plan, c6PlanB], p.team_id = "t2") ∧
     dbGetAirline c6Db ("t2") = none ∧
     (∀ p ∈ [w1Plan, c6PlanB], p.team_id ≠ "t2" →
       (dbGetAirline c6Db p.team_id).isSome)) ∧
    ((∃ r, dictGet ("t2")
        (process_semester_plans (fun _ => .error ("down")) (fun _ => .error ("down"))
          (fun _ => none) c6Rnd (fun _ => .error ("down")) 0 c6Db
          [w1Plan, c6PlanB]).1.teams = some r ∧
        r.status = "company_failed" ∧
        r.error = some ("Airline state not found for team " ++ "t2")) ∧
     (∀ p ∈ [w1Plan, c6PlanB], p.team_id ≠ "t2" →
       ∃ r, dictGet p.team_id
          (process_semester_plans (fun _ => .error ("down")) (fun _ => .error ("down"))
            (fun _ => none) c6Rnd (fun _ => .error ("down")) 0 c6Db
            [w1Plan, c6PlanB]).1.teams = some r ∧ r.status = "completed")) :=
  ⟨⟨by decide, by decide, by decide, by decide⟩,
   C6_absent_state_isolated (fun _ => .error ("down")) (fun _ => .error ("down"))
     (fun _ => none) c6Rnd (fun _ => .error ("down")) 0 c6Db [w1Plan, c6PlanB] ("t2")
     (by decide) (by decide) (by decide) (by decide)⟩

end Airlines
